import Mathlib

/-!
Shallow embedding of the eliza_bot repository's content-generation and
posting pipeline (src/app.py and src/twitter_bot.py), together with
theorems settling the frozen claims about it.

Text is modelled as `List Char`, matching Python `str` (Python `len`,
slicing `s[i:j]`, `+` and `" ".join` become `List.length`, `take`/`drop`,
`++` and `List.intercalate [' ']`).  Remote provider calls are modelled as
oracles: a provider call that may fail returns `Option (List Char)`, where
`none` is an exception/`None` and `some []` is an empty response (both are
falsy in Python's `if not text:` tests).  Wall-clock time is modelled as a
rational number; `time.sleep(d)` followed by `time.time()` is idealised as
advancing the clock by exactly `d`.
-/

/-- Python strings are modelled as lists of characters. -/
abbrev Str := List Char

/-- Python truthiness of an optional string: `None` and the empty string
are falsy.  `truthy_text r` is `some s` exactly when Python's
`if r:` succeeds, and `none` when `r` is `None` or `""`. -/
def truthy_text : Option Str → Option Str
  | none => none
  | some s => if s = [] then none else some s

/-- Recursion core of `chunk_text` (app.py line 119-121):
`[text[i:i + chunk_size] for i in range(0, len(text), chunk_size)]`.
The fuel argument bounds the number of loop iterations; `chunk_text`
supplies `text.length`, which suffices whenever `chunk_size > 0`. -/
def chunk_text_go (chunk_size : ℕ) : ℕ → Str → List Str
  | 0, _ => []
  | _ + 1, [] => []
  | fuel + 1, c :: cs =>
      (c :: cs).take chunk_size :: chunk_text_go chunk_size fuel ((c :: cs).drop chunk_size)

/-- app.py `chunk_text(text, chunk_size=1000)`: slice the text into
consecutive pieces of `chunk_size` characters. -/
def chunk_text (text : Str) (chunk_size : ℕ) : List Str :=
  chunk_text_go chunk_size text.length text

/-- app.py `summarize_text(text)` (lines 123-152).  The per-chunk call to
`call_openai` is the oracle argument: `oracle c` is the provider's reply
for chunk `c` (`none` = exception/`None`).  Summaries are kept only when
truthy (`if summary:`), joined with single spaces, truncated to 280
characters when longer, and `none` is returned when the result is empty. -/
def summarize_text (text : Str) (oracle : Str → Option Str) : Option Str :=
  let summaries := (chunk_text text 1000).filterMap (fun c => truthy_text (oracle c))
  let combined := List.intercalate [' '] summaries
  let combined2 := if 280 < combined.length then combined.take 280 else combined
  if combined2 = [] then none else some combined2

/-- Python `random.choice(xs)` modelled with an explicit draw index taken
modulo the list length; `default` stands in for the empty-list case, which
the callers in app.py guard against themselves. -/
def random_choice (xs : List Str) (i : ℕ) (default : Str) : Str :=
  match xs with
  | [] => default
  | x :: rest => (x :: rest).get ⟨i % (x :: rest).length, Nat.mod_lt _ (Nat.succ_pos _)⟩

/-- app.py `get_fallback_prompt(category)` (lines 166-173).  The prompt
pools `FEDJA_PROMPTS` and `GENERAL_CRYPTO_PROMPTS` are loaded from files
at startup, so they are parameters here; `i` is the `random.choice` draw. -/
def get_fallback_prompt (category : String) (fedjaPrompts generalPrompts : List Str) (i : ℕ) : Str :=
  if category = "fedja" then
    match fedjaPrompts with
    | [] => "Default $FEDJA prompt.".data
    | x :: rest => random_choice (x :: rest) i "Default $FEDJA prompt.".data
  else if category = "general_crypto" then
    match generalPrompts with
    | [] => "Default general crypto prompt.".data
    | x :: rest => random_choice (x :: rest) i "Default general crypto prompt.".data
  else "Default prompt.".data

/-- app.py lines 199-204: the hard-coded pool of short terminal fallback
tweets (file bytes reproduced verbatim). -/
def short_fallback_pool : List Str :=
  ["Crypto is wild today! üöÄ #CryptoChat".data,
   "AI is changing everything! ü§ñ #CryptoTech".data,
   "DeFi is the future! üìà #DeFiInsight".data,
   "Memecoins are here to stay! üêï #MemeCoins".data]

/-- app.py line 217: the contract-address promotional reference. -/
def fedja_ref_contract : Str :=
  "\n\n$FEDJA | 9oDw3Q36a8mVHfPCSmxYBXE9iLeJjsCYu97JGpPwDvVZ üêï #FedjaFren".data

/-- app.py line 219: the Twitter-tag promotional reference. -/
def fedja_ref_twitter : Str :=
  "\n\nCheck out @Fedja_SOL for more info! üêï #FedjaMoon".data

/-- app.py lines 221-228: append the $FEDJA reference, truncating the
tweet body first when body plus reference would exceed 280 characters. -/
def append_fedja_reference (final_tweet fedja_reference : Str) : Str :=
  if final_tweet.length + fedja_reference.length ≤ 280 then final_tweet ++ fedja_reference
  else final_tweet.take (280 - fedja_reference.length) ++ fedja_reference

/-- Environment for one run of app.py `generate_and_post_tweet`: the
provider replies and the random draws it consumes.  `openaiDetailed` is
the result of the initial `call_openai(base_prompt)`, `chunkOracle` the
per-chunk provider replies inside `summarize_text`; `idx0`-`idx3` are the
successive `random.choice` draws, and `refContract` the draw between the
contract-address and Twitter-tag references. -/
structure GenEnv where
  openaiDetailed : Option Str
  chunkOracle : Str → Option Str
  fedjaPrompts : List Str
  generalPrompts : List Str
  idx0 : ℕ
  idx1 : ℕ
  idx2 : ℕ
  idx3 : ℕ
  refContract : Bool

/-- app.py lines 178-182: the detailed text, falling back to a category
prompt when `call_openai` returned nothing truthy. -/
def gen_detailed_text (env : GenEnv) (category : String) : Str :=
  match truthy_text env.openaiDetailed with
  | none => get_fallback_prompt category env.fedjaPrompts env.generalPrompts env.idx0
  | some t => t

/-- app.py lines 184-190: `final_tweet` after summarization, falling back
to a category prompt when `summarize_text` returned nothing truthy. -/
def gen_summarized_tweet (env : GenEnv) (category : String) : Str :=
  match truthy_text (summarize_text (gen_detailed_text env category) env.chunkOracle) with
  | none => get_fallback_prompt category env.fedjaPrompts env.generalPrompts env.idx1
  | some s => s

/-- app.py lines 192-195: `final_tweet` after the first 280-character
check, replaced by a fresh fallback prompt when too long. -/
def gen_checked_tweet (env : GenEnv) (category : String) : Str :=
  if 280 < (gen_summarized_tweet env category).length then
    get_fallback_prompt category env.fedjaPrompts env.generalPrompts env.idx2
  else gen_summarized_tweet env category

/-- app.py lines 197-205: `final_tweet` after the second 280-character
check, replaced by a draw from the short hard-coded pool when still too
long. -/
def gen_final_tweet (env : GenEnv) (category : String) : Str :=
  if 280 < (gen_checked_tweet env category).length then
    short_fallback_pool.get ⟨env.idx3 % short_fallback_pool.length, Nat.mod_lt _ (by decide)⟩
  else gen_checked_tweet env category

/-- app.py `generate_and_post_tweet(base_prompt, category)` (lines
175-232), returning the text handed to `post_tweet`: the staged
`final_tweet` with, for the `fedja` category, the $FEDJA reference
appended per lines 211-229. -/
def generate_and_post_tweet (env : GenEnv) (category : String) : Str :=
  if category = "fedja" then
    append_fedja_reference (gen_final_tweet env category)
      (if env.refContract then fedja_ref_contract else fedja_ref_twitter)
  else gen_final_tweet env category

/-- Outcome of one attempt against the OpenAI chat endpoint in
twitter_bot.py: a successful (already stripped) reply, a
`RateLimitError`, or any other exception. -/
inductive ProviderResult where
  | success (text : Str)
  | rateLimitError
  | otherError
deriving DecidableEq

/-- Result of twitter_bot.py `call_openai_with_backoff`: the returned
text (if any), the number of attempts made against the provider, and the
list of back-off sleep durations performed, in order. -/
structure BackoffOutcome where
  result : Option Str
  attempts : ℕ
  sleeps : List ℕ
deriving DecidableEq

/-- Loop body of twitter_bot.py `call_openai_with_backoff` (lines
221-251): `while retries < 5`, attempt the call; on `RateLimitError`
increment `retries` and sleep `min(2 ** retries, 60)`; on any other
exception return `None`.  `oracle n` is the outcome of the attempt made
when `retries = n`; `fuel` is `5 - retries` and `attempts` counts the
attempts already made. -/
def call_openai_with_backoff_go (oracle : ℕ → ProviderResult) :
    ℕ → ℕ → List ℕ → BackoffOutcome
  | 0, attempts, sleeps => ⟨none, attempts, sleeps⟩
  | fuel + 1, attempts, sleeps =>
      match oracle attempts with
      | .success t => ⟨some t, attempts + 1, sleeps⟩
      | .rateLimitError =>
          call_openai_with_backoff_go oracle fuel (attempts + 1)
            (sleeps ++ [min (2 ^ (attempts + 1)) 60])
      | .otherError => ⟨none, attempts + 1, sleeps⟩

/-- twitter_bot.py `call_openai_with_backoff(prompt, model)`: run the
retry loop with `retries` starting at 0 and at most 5 iterations. -/
def call_openai_with_backoff (oracle : ℕ → ProviderResult) : BackoffOutcome :=
  call_openai_with_backoff_go oracle 5 0 []

/-- twitter_bot.py `run_bot`, `regular_tweet` action (lines 283-291): the
body posted via `client.create_tweet(text=tweet)`, or `none` when the
provider call yielded nothing truthy.  The tweet text is posted exactly
as the provider returned it. -/
def run_bot_regular_tweet (oracle : ℕ → ProviderResult) : Option Str :=
  truthy_text (call_openai_with_backoff oracle).result

/-- twitter_bot.py `OPENAI_RATE_LIMITS[model]` entry (lines 65-68): the
per-model token and request budgets and the usage counters with the
start of the current one-minute window. -/
structure OpenAIUsage where
  tpm : ℕ
  rpm : ℕ
  tokens_used : ℕ
  requests_used : ℕ
  last_reset : ℚ
deriving DecidableEq

/-- twitter_bot.py lines 126-129: reset the counters when a minute has
passed since `last_reset`. -/
def reset_if_window_expired (u : OpenAIUsage) (current_time : ℚ) : OpenAIUsage :=
  if 60 ≤ current_time - u.last_reset then ⟨u.tpm, u.rpm, 0, 0, current_time⟩ else u

/-- twitter_bot.py `check_openai_rate_limit(model)` (lines 119-147),
returning the total seconds slept together with the usage state after the
call.  `current_time` is the single `time.time()` read at entry; each
sleeping branch computes `60 - (current_time - last_reset)`, sleeps, and
then zeroes the counters with `last_reset` set to the (idealised) clock
after the sleep. -/
def check_openai_rate_limit (u : OpenAIUsage) (current_time : ℚ) : ℚ × OpenAIUsage :=
  let u1 := reset_if_window_expired u current_time
  let wait1 := if u1.tpm ≤ u1.tokens_used then 60 - (current_time - u1.last_reset) else 0
  let u2 : OpenAIUsage :=
    if u1.tpm ≤ u1.tokens_used then ⟨u1.tpm, u1.rpm, 0, 0, current_time + wait1⟩ else u1
  let wait2 := if u2.rpm ≤ u2.requests_used then 60 - (current_time - u2.last_reset) else 0
  let u3 : OpenAIUsage :=
    if u2.rpm ≤ u2.requests_used then ⟨u2.tpm, u2.rpm, 0, 0, current_time + wait1 + wait2⟩
    else u2
  (wait1 + wait2, u3)

/-- Outcome of the CryptoPanic request inside twitter_bot.py
`fetch_trending_topics`: an exception (network or parse error), a JSON
body without a `results` key, or a `results` list whose items each
optionally carry a `title`. -/
inductive NetResult where
  | failure
  | noResults
  | results (items : List (Option Str))
deriving DecidableEq

/-- twitter_bot.py module state for the trending-topics cache (lines
77-78): `last_trending_time` and `cached_trending_topics`. -/
structure TrendCache where
  last_trending_time : ℚ
  cached_trending_topics : List Str
deriving DecidableEq

/-- twitter_bot.py `fetch_trending_topics()` (lines 201-219), returning
the topics, the cache state after the call, and whether a network request
was issued.  Within 900 seconds of the last successful fetch the cache is
returned without a request; otherwise the request's outcome `net` is
parsed, a success stores the first five titles in the cache, and any
failure returns `[]` leaving the cache untouched. -/
def fetch_trending_topics (c : TrendCache) (now : ℚ) (net : NetResult) :
    List Str × TrendCache × Bool :=
  if now - c.last_trending_time < 900 then (c.cached_trending_topics, c, false)
  else
    match net with
    | .failure => ([], c, true)
    | .noResults => ([], c, true)
    | .results items =>
        let topics := (items.filterMap id).take 5
        (topics, ⟨now, topics⟩, true)

/-! ### Helper lemmas about `chunk_text` -/

theorem chunk_text_go_nil (n fuel : ℕ) : chunk_text_go n fuel [] = [] := by
  cases fuel <;> rfl

theorem chunk_text_go_flatten (n : ℕ) (hn : 0 < n) :
    ∀ (fuel : ℕ) (l : Str), l.length ≤ fuel → (chunk_text_go n fuel l).flatten = l := by
  intro fuel
  induction fuel with
  | zero =>
      intro l hl
      have : l = [] := List.eq_nil_of_length_eq_zero (Nat.le_zero.mp hl)
      subst this
      rfl
  | succ fuel ih =>
      intro l hl
      cases l with
      | nil => rfl
      | cons c cs =>
          have hdrop : ((c :: cs).drop n).length ≤ fuel := by
            rw [List.length_drop]
            omega
          simp only [chunk_text_go, List.flatten_cons]
          rw [ih _ hdrop, List.take_append_drop]

theorem chunk_text_go_length_le (n : ℕ) :
    ∀ (fuel : ℕ) (l : Str), ∀ c ∈ chunk_text_go n fuel l, c.length ≤ n := by
  intro fuel
  induction fuel with
  | zero => intro l c hc; simp [chunk_text_go] at hc
  | succ fuel ih =>
      intro l c hc
      cases l with
      | nil => simp [chunk_text_go] at hc
      | cons x xs =>
          simp only [chunk_text_go, List.mem_cons] at hc
          rcases hc with hc | hc
          · subst hc
            rw [List.length_take]
            exact Nat.min_le_left _ _
          · exact ih _ _ hc

theorem chunk_text_go_dropLast (n : ℕ) :
    ∀ (fuel : ℕ) (l : Str), ∀ c ∈ (chunk_text_go n fuel l).dropLast, c.length = n := by
  intro fuel
  induction fuel with
  | zero => intro l c hc; simp [chunk_text_go] at hc
  | succ fuel ih =>
      intro l c hc
      cases l with
      | nil => simp [chunk_text_go] at hc
      | cons x xs =>
          simp only [chunk_text_go] at hc
          cases hrest : chunk_text_go n fuel ((x :: xs).drop n) with
          | nil => rw [hrest] at hc; simp at hc
          | cons r rs =>
              rw [hrest] at hc
              rw [List.dropLast_cons₂] at hc
              rcases List.mem_cons.mp hc with hc | hc
              · subst hc
                have hne : (x :: xs).drop n ≠ [] := by
                  intro hnil
                  rw [hnil, chunk_text_go_nil] at hrest
                  exact List.noConfusion hrest
                have hlen : n < (x :: xs).length := by
                  by_contra hle
                  exact hne (List.drop_eq_nil_of_le (Nat.le_of_not_lt hle))
                rw [List.length_take]
                exact Nat.min_eq_left (Nat.le_of_lt hlen)
              · rw [← hrest] at hc
                exact ih _ _ hc

/-- C9: concatenating the chunks returned by `chunk_text(s, n)` in order
reconstructs `s` exactly; every chunk has length at most `n`, and every
chunk except possibly the last has length exactly `n`, for every chunk
size `n > 0`. -/
theorem chunk_text_spec (text : Str) (n : ℕ) (hn : 0 < n) :
    (chunk_text text n).flatten = text ∧
    (∀ c ∈ chunk_text text n, c.length ≤ n) ∧
    (∀ c ∈ (chunk_text text n).dropLast, c.length = n) :=
  ⟨chunk_text_go_flatten n hn text.length text (Nat.le_refl _),
   chunk_text_go_length_le n text.length text,
   chunk_text_go_dropLast n text.length text⟩

/-- Witness for C9 at a concrete input: chunking a 13-character string
with chunk size 4. -/
theorem chunk_text_spec_witness :
    0 < 4 ∧
    ((chunk_text "hello, world!".data 4).flatten = "hello, world!".data ∧
     (∀ c ∈ chunk_text "hello, world!".data 4, c.length ≤ 4) ∧
     (∀ c ∈ (chunk_text "hello, world!".data 4).dropLast, c.length = 4)) :=
  ⟨by decide, chunk_text_spec "hello, world!".data 4 (by decide)⟩

/-! ### Helper lemmas about `summarize_text` -/

theorem summarize_text_some_ne_nil {text : Str} {oracle : Str → Option Str} {s : Str}
    (h : summarize_text text oracle = some s) : s ≠ [] := by
  simp only [summarize_text] at h
  split at h <;> split at h <;>
    first
      | exact Option.noConfusion h
      | (rename_i hne
         rw [Option.some_inj] at h
         subst h
         exact hne)

theorem summarize_text_some_length {text : Str} {oracle : Str → Option Str} {s : Str}
    (h : summarize_text text oracle = some s) : s.length ≤ 280 := by
  simp only [summarize_text] at h
  split at h
  · split at h
    · exact Option.noConfusion h
    · rw [Option.some_inj] at h
      subst h
      rw [List.length_take]
      exact Nat.min_le_left _ _
  · rename_i hle
    split at h
    · exact Option.noConfusion h
    · rw [Option.some_inj] at h
      subst h
      omega

/-- C10: `summarize_text` never returns an empty string — for every input
text and every behaviour of the per-chunk provider oracle it returns
either `none` (so the caller falls back) or a non-empty string of length
at most 280. -/
theorem summarize_text_none_or_short (text : Str) (oracle : Str → Option Str) :
    summarize_text text oracle = none ∨
    ∃ s, summarize_text text oracle = some s ∧ s ≠ [] ∧ s.length ≤ 280 := by
  cases h : summarize_text text oracle with
  | none => exact Or.inl rfl
  | some s =>
      exact Or.inr ⟨s, rfl, summarize_text_some_ne_nil h, summarize_text_some_length h⟩

/-! ### Helper lemmas about the fallback machinery -/

theorem truthy_text_some {r : Option Str} {s : Str} (h : truthy_text r = some s) :
    s ≠ [] ∧ r = some s := by
  cases r with
  | none => exact Option.noConfusion h
  | some t =>
      simp only [truthy_text] at h
      split at h
      · exact Option.noConfusion h
      · rename_i hne
        rw [Option.some_inj] at h
        subst h
        exact ⟨hne, rfl⟩

theorem truthy_text_of_ne_nil {s : Str} (h : s ≠ []) : truthy_text (some s) = some s := by
  simp only [truthy_text, if_neg h]

theorem random_choice_mem (x : Str) (rest : List Str) (i : ℕ) (d : Str) :
    random_choice (x :: rest) i d ∈ x :: rest := by
  unfold random_choice
  exact List.get_mem _ _ _

theorem get_fallback_prompt_ne_nil (category : String) (fp gp : List Str) (i : ℕ)
    (hf : ∀ p ∈ fp, p ≠ []) (hg : ∀ p ∈ gp, p ≠ []) :
    get_fallback_prompt category fp gp i ≠ [] := by
  unfold get_fallback_prompt
  split
  · cases fp with
    | nil =>
        show "Default $FEDJA prompt.".data ≠ []
        decide
    | cons x rest => exact hf _ (random_choice_mem x rest i _)
  split
  · cases gp with
    | nil =>
        show "Default general crypto prompt.".data ≠ []
        decide
    | cons x rest => exact hg _ (random_choice_mem x rest i _)
  decide

theorem short_fallback_pool_entries :
    ∀ c ∈ short_fallback_pool, c ≠ [] ∧ c.length ≤ 280 := by decide

theorem fedja_reference_length_le (b : Bool) :
    (if b then fedja_ref_contract else fedja_ref_twitter).length ≤ 280 := by
  cases b <;> decide

theorem fedja_reference_ne_nil (b : Bool) :
    (if b then fedja_ref_contract else fedja_ref_twitter) ≠ [] := by
  cases b <;> decide

theorem append_fedja_reference_length_le (body ref : Str) (h : ref.length ≤ 280) :
    (append_fedja_reference body ref).length ≤ 280 := by
  unfold append_fedja_reference
  split
  · rename_i hle
    rw [List.length_append]
    exact hle
  · rw [List.length_append, List.length_take]
    have hmin : min (280 - ref.length) body.length ≤ 280 - ref.length := Nat.min_le_left _ _
    omega

theorem append_fedja_reference_suffix (body ref : Str) :
    ref <:+ append_fedja_reference body ref := by
  unfold append_fedja_reference
  split
  · exact ⟨body, rfl⟩
  · exact ⟨body.take (280 - ref.length), rfl⟩

theorem append_fedja_reference_ne_nil (body ref : Str) (h : ref ≠ []) :
    append_fedja_reference body ref ≠ [] := by
  intro hnil
  rcases append_fedja_reference_suffix body ref with ⟨t, ht⟩
  rw [hnil] at ht
  exact h (List.append_eq_nil.mp ht).2

theorem gen_final_tweet_length_le (env : GenEnv) (category : String) :
    (gen_final_tweet env category).length ≤ 280 := by
  unfold gen_final_tweet
  split
  · exact (short_fallback_pool_entries _ (List.get_mem _ _ _)).2
  · rename_i hle
    omega

/-- C1 (amended): every message produced by app.py's
`generate_and_post_tweet` pipeline has length at most 280, for every
provider behaviour, prompt-pool content and random draw. -/
theorem generate_and_post_tweet_length_le (env : GenEnv) (category : String) :
    (generate_and_post_tweet env category).length ≤ 280 := by
  unfold generate_and_post_tweet
  split
  · exact append_fedja_reference_length_le _ _ (fedja_reference_length_le env.refContract)
  · exact gen_final_tweet_length_le env category

/-- Oracle under which every OpenAI attempt in twitter_bot.py succeeds
with a 281-character reply. -/
def long_tweet_oracle : ℕ → ProviderResult :=
  fun _ => ProviderResult.success (List.replicate 281 'a')

set_option maxRecDepth 4000 in
/-- C1 (counterexample): twitter_bot.py's `run_bot` posts the provider's
reply verbatim, so a 281-character provider output is posted as a
281-character body, exceeding 280. -/
theorem run_bot_posts_overlong_body :
    run_bot_regular_tweet long_tweet_oracle = some (List.replicate 281 'a') ∧
    280 < (List.replicate 281 'a').length := by decide

/-- C2: for the `fedja` category the promotional reference is a suffix of
the final body; whenever body plus reference would exceed 280 characters
the body is truncated to `280 - len(reference)` before appending; in
particular a 270-character body with a 25-character reference yields
exactly `body[:255] + reference`, of length exactly 280. -/
theorem fedja_promo_suffix_spec (env : GenEnv) (body ref : Str)
    (hb : body.length = 270) (hr : ref.length = 25) :
    (if env.refContract then fedja_ref_contract else fedja_ref_twitter) <:+
      generate_and_post_tweet env "fedja" ∧
    (∀ b r : Str, 280 < b.length + r.length →
      append_fedja_reference b r = b.take (280 - r.length) ++ r) ∧
    append_fedja_reference body ref = body.take 255 ++ ref ∧
    (append_fedja_reference body ref).length = 280 := by
  have htrunc : ∀ b r : Str, 280 < b.length + r.length →
      append_fedja_reference b r = b.take (280 - r.length) ++ r := by
    intro b r h
    unfold append_fedja_reference
    rw [if_neg (by omega)]
  have hscen : append_fedja_reference body ref = body.take 255 ++ ref := by
    have h := htrunc body ref (by omega)
    rw [hr] at h
    simpa using h
  refine ⟨?_, htrunc, hscen, ?_⟩
  · unfold generate_and_post_tweet
    rw [if_pos rfl]
    exact append_fedja_reference_suffix _ _
  · rw [hscen, List.length_append, List.length_take, hb, hr]
    omega

/-- Concrete environment used by the C2 witness. -/
def c2_env : GenEnv :=
  ⟨none, fun _ => none, [], [], 0, 0, 0, 0, true⟩

set_option maxRecDepth 4000 in
/-- Witness for C2 at concrete inputs: a 270-character body of `a`s and a
25-character reference of `b`s. -/
theorem fedja_promo_suffix_spec_witness :
    (List.replicate 270 'a').length = 270 ∧ (List.replicate 25 'b').length = 25 ∧
    ((if c2_env.refContract then fedja_ref_contract else fedja_ref_twitter) <:+
       generate_and_post_tweet c2_env "fedja" ∧
     (∀ b r : Str, 280 < b.length + r.length →
       append_fedja_reference b r = b.take (280 - r.length) ++ r) ∧
     append_fedja_reference (List.replicate 270 'a') (List.replicate 25 'b') =
       (List.replicate 270 'a').take 255 ++ List.replicate 25 'b' ∧
     (append_fedja_reference (List.replicate 270 'a') (List.replicate 25 'b')).length = 280) :=
  ⟨by simp, by simp,
   fedja_promo_suffix_spec c2_env (List.replicate 270 'a') (List.replicate 25 'b')
     (by simp) (by simp)⟩

/-! ### Non-emptiness of every pipeline stage -/

theorem gen_summarized_tweet_ne_nil (env : GenEnv) (category : String)
    (hf : ∀ p ∈ env.fedjaPrompts, p ≠ []) (hg : ∀ p ∈ env.generalPrompts, p ≠ []) :
    gen_summarized_tweet env category ≠ [] := by
  unfold gen_summarized_tweet
  cases h : truthy_text (summarize_text (gen_detailed_text env category) env.chunkOracle) with
  | none =>
      simp only [h]
      exact get_fallback_prompt_ne_nil category _ _ _ hf hg
  | some s =>
      simp only [h]
      exact (truthy_text_some h).1

theorem gen_checked_tweet_ne_nil (env : GenEnv) (category : String)
    (hf : ∀ p ∈ env.fedjaPrompts, p ≠ []) (hg : ∀ p ∈ env.generalPrompts, p ≠ []) :
    gen_checked_tweet env category ≠ [] := by
  unfold gen_checked_tweet
  split
  · exact get_fallback_prompt_ne_nil category _ _ _ hf hg
  · exact gen_summarized_tweet_ne_nil env category hf hg

theorem gen_final_tweet_ne_nil (env : GenEnv) (category : String)
    (hf : ∀ p ∈ env.fedjaPrompts, p ≠ []) (hg : ∀ p ∈ env.generalPrompts, p ≠ []) :
    gen_final_tweet env category ≠ [] := by
  unfold gen_final_tweet
  split
  · exact (short_fallback_pool_entries _ (List.get_mem _ _ _)).1
  · exact gen_checked_tweet_ne_nil env category hf hg

/-- C3: when the reasoning provider call and every summarization call
fail (return no text), the pipeline still produces a non-empty message,
and the terminal fallback pool it draws from is never empty.  The pool
hypotheses record that `load_prompts` keeps only non-blank lines. -/
theorem generate_and_post_tweet_fallback_ne_nil (env : GenEnv) (category : String)
    (hf : ∀ p ∈ env.fedjaPrompts, p ≠ []) (hg : ∀ p ∈ env.generalPrompts, p ≠ [])
    (hfail1 : env.openaiDetailed = none ∨ env.openaiDetailed = some [])
    (hfail2 : ∀ c, env.chunkOracle c = none ∨ env.chunkOracle c = some []) :
    generate_and_post_tweet env category ≠ [] ∧ short_fallback_pool ≠ [] := by
  refine ⟨?_, by decide⟩
  unfold generate_and_post_tweet
  split
  · exact append_fedja_reference_ne_nil _ _ (fedja_reference_ne_nil env.refContract)
  · exact gen_final_tweet_ne_nil env category hf hg

/-- Concrete environment used by the C3 witness: both providers fail on
every call. -/
def c3_env : GenEnv :=
  ⟨none, fun _ => none, [], [], 0, 0, 0, 0, true⟩

/-- Witness for C3 at a concrete input: with every provider call failing,
the pipeline output is still non-empty. -/
theorem generate_and_post_tweet_fallback_ne_nil_witness :
    (∀ c, c3_env.chunkOracle c = none ∨ c3_env.chunkOracle c = some []) ∧
    (generate_and_post_tweet c3_env "general_crypto" ≠ [] ∧ short_fallback_pool ≠ []) :=
  ⟨fun _ => Or.inl rfl,
   generate_and_post_tweet_fallback_ne_nil c3_env "general_crypto"
     (by intro p hp; exact absurd hp (List.not_mem_nil p))
     (by intro p hp; exact absurd hp (List.not_mem_nil p))
     (Or.inl rfl) (fun _ => Or.inl rfl)⟩

/-- Environment for the C4 counterexample: the provider returns the
5-character text `short` and the summarizer returns `SUMMARY` for every
chunk. -/
def c4_env : GenEnv :=
  ⟨some "short".data, fun _ => some "SUMMARY".data, [], [], 0, 0, 0, 0, true⟩

/-- C4 (counterexample): `generate_and_post_tweet` runs the summarization
path even when the provider output does not exceed 280 characters — with
a 5-character provider reply the posted body is the summarizer's reply,
not the original text. -/
theorem summarization_runs_on_short_text :
    ("short".data).length ≤ 280 ∧
    generate_and_post_tweet c4_env "general_crypto" = "SUMMARY".data ∧
    "SUMMARY".data ≠ "short".data := by decide

/-- C4 (amended): whatever text the reasoning provider returns — of any
length — `generate_and_post_tweet` hands it to `summarize_text`, which
splits it into fixed-size 1000-character chunks, keeps each truthy
per-chunk provider summary, joins them with single spaces and truncates
the join to 280 characters; when summarization succeeds its result is
the posted body (for non-`fedja` categories). -/
theorem summarize_pipeline_spec (t : Str) (o : Str → Option Str) (s : Str) (env : GenEnv)
    (category : String) (hcat : category ≠ "fedja")
    (henv1 : env.openaiDetailed = some t) (ht : t ≠ []) (henv2 : env.chunkOracle = o)
    (hs : summarize_text t o = some s) :
    s = (List.intercalate [' ']
          ((chunk_text t 1000).filterMap (fun c => truthy_text (o c)))).take 280 ∧
    generate_and_post_tweet env category = s := by
  have hd : gen_detailed_text env category = t := by
    unfold gen_detailed_text
    rw [henv1, truthy_text_of_ne_nil ht]
  have hsum : gen_summarized_tweet env category = s := by
    unfold gen_summarized_tweet
    rw [hd, henv2, hs, truthy_text_of_ne_nil (summarize_text_some_ne_nil hs)]
  have hchk : gen_checked_tweet env category = s := by
    unfold gen_checked_tweet
    rw [hsum, if_neg (by have := summarize_text_some_length hs; omega)]
  have hfin : gen_final_tweet env category = s := by
    unfold gen_final_tweet
    rw [hchk, if_neg (by have := summarize_text_some_length hs; omega)]
  refine ⟨?_, ?_⟩
  · simp only [summarize_text] at hs
    split at hs
    · split at hs
      · exact Option.noConfusion hs
      · rw [Option.some_inj] at hs
        exact hs.symm
    · rename_i hle
      split at hs
      · exact Option.noConfusion hs
      · rw [Option.some_inj] at hs
        rw [← hs, List.take_of_length_le (by omega)]
  · unfold generate_and_post_tweet
    rw [if_neg hcat, hfin]

/-- Per-chunk oracle for the C4 witness. -/
def c4_oracle : Str → Option Str := fun _ => some "OK".data

/-- Environment for the C4 witness. -/
def c4_wenv : GenEnv :=
  ⟨some "hello".data, c4_oracle, [], [], 0, 0, 0, 0, true⟩

/-- Witness for C4 (amended) at concrete inputs. -/
theorem summarize_pipeline_spec_witness :
    ("general_crypto" : String) ≠ "fedja" ∧
    c4_wenv.openaiDetailed = some "hello".data ∧
    "hello".data ≠ ([] : Str) ∧
    summarize_text "hello".data c4_oracle = some "OK".data ∧
    ("OK".data = (List.intercalate [' ']
        ((chunk_text "hello".data 1000).filterMap (fun c => truthy_text (c4_oracle c)))).take 280 ∧
     generate_and_post_tweet c4_wenv "general_crypto" = "OK".data) :=
  ⟨by decide, rfl, by decide, by decide,
   summarize_pipeline_spec "hello".data c4_oracle "OK".data c4_wenv "general_crypto"
     (by decide) rfl (by decide) rfl (by decide)⟩

/-- C5: for the rate limiter, the entry reset zeroes the counters exactly
when `now - last_reset >= 60`; when the request counter has reached the
per-window limit within a live window (tokens within budget), the call
waits some `w` with `0 ≤ w ≤ 60`; and after the wait the used-request
counter is 0. -/
theorem check_openai_rate_limit_spec (u : OpenAIUsage) (now : ℚ)
    (hmono : u.last_reset ≤ now) (hwin : now - u.last_reset < 60)
    (htok : u.tokens_used < u.tpm) (hreq : u.rpm ≤ u.requests_used) :
    (∀ (v : OpenAIUsage) (t : ℚ), 60 ≤ t - v.last_reset →
      (reset_if_window_expired v t).requests_used = 0 ∧
      (reset_if_window_expired v t).tokens_used = 0 ∧
      (reset_if_window_expired v t).last_reset = t) ∧
    reset_if_window_expired u now = u ∧
    0 ≤ (check_openai_rate_limit u now).1 ∧
    (check_openai_rate_limit u now).1 ≤ 60 ∧
    (check_openai_rate_limit u now).2.requests_used = 0 := by
  have hnotexp : ¬ (60 : ℚ) ≤ now - u.last_reset := by linarith
  have hnottok : ¬ u.tpm ≤ u.tokens_used := Nat.not_le.mpr htok
  have hreset : reset_if_window_expired u now = u := by
    unfold reset_if_window_expired
    rw [if_neg hnotexp]
  refine ⟨?_, hreset, ?_, ?_, ?_⟩
  · intro v t hvt
    unfold reset_if_window_expired
    rw [if_pos hvt]
    exact ⟨rfl, rfl, rfl⟩
  · simp only [check_openai_rate_limit, hreset, hnottok, hreq, if_true, if_false]
    linarith
  · simp only [check_openai_rate_limit, hreset, hnottok, hreq, if_true, if_false]
    linarith
  · simp only [check_openai_rate_limit, hreset, hnottok, hreq, if_true, if_false]

/-- Witness for C5 at a concrete state: request limit 3 reached, 30
seconds into the window. -/
theorem check_openai_rate_limit_spec_witness :
    (0 : ℚ) ≤ 30 ∧ (30 : ℚ) - 0 < 60 ∧ 0 < 40000 ∧ 3 ≤ 3 ∧
    (0 ≤ (check_openai_rate_limit ⟨40000, 3, 0, 3, 0⟩ 30).1 ∧
     (check_openai_rate_limit ⟨40000, 3, 0, 3, 0⟩ 30).1 ≤ 60 ∧
     (check_openai_rate_limit ⟨40000, 3, 0, 3, 0⟩ 30).2.requests_used = 0) := by
  have h := check_openai_rate_limit_spec ⟨40000, 3, 0, 3, 0⟩ 30
    (by norm_num) (by norm_num) (by norm_num) (Nat.le_refl 3)
  exact ⟨by norm_num, by norm_num, by norm_num, Nat.le_refl 3,
    h.2.2.1, h.2.2.2.1, h.2.2.2.2⟩

/-- C6: within 900 seconds of the last successful fetch, two calls to
`fetch_trending_topics` both return the cached topics, leave the cache
unchanged and issue no network request. -/
theorem fetch_trending_topics_cached (c : TrendCache) (t1 t2 : ℚ) (net1 net2 : NetResult)
    (h1 : t1 - c.last_trending_time < 900) (h2 : t2 - c.last_trending_time < 900) :
    fetch_trending_topics c t1 net1 = (c.cached_trending_topics, c, false) ∧
    fetch_trending_topics (fetch_trending_topics c t1 net1).2.1 t2 net2 =
      (c.cached_trending_topics, c, false) := by
  have e1 : fetch_trending_topics c t1 net1 = (c.cached_trending_topics, c, false) := by
    unfold fetch_trending_topics
    rw [if_pos h1]
  refine ⟨e1, ?_⟩
  rw [e1]
  show fetch_trending_topics c t2 net2 = (c.cached_trending_topics, c, false)
  unfold fetch_trending_topics
  rw [if_pos h2]

/-- Witness for C6 at a concrete cache and times 500 and 800 seconds
after the fetch. -/
theorem fetch_trending_topics_cached_witness :
    (1500 : ℚ) - 1000 < 900 ∧ (1800 : ℚ) - 1000 < 900 ∧
    (fetch_trending_topics ⟨1000, ["btc news".data]⟩ 1500 NetResult.failure =
       (["btc news".data], ⟨1000, ["btc news".data]⟩, false) ∧
     fetch_trending_topics
         (fetch_trending_topics ⟨1000, ["btc news".data]⟩ 1500 NetResult.failure).2.1
         1800 NetResult.failure =
       (["btc news".data], ⟨1000, ["btc news".data]⟩, false)) :=
  ⟨by norm_num, by norm_num,
   fetch_trending_topics_cached ⟨1000, ["btc news".data]⟩ 1500 1800
     NetResult.failure NetResult.failure (by norm_num) (by norm_num)⟩

/-- C7: when the trending-topics request or its parsing fails, the
fetcher returns an empty sequence and the cached topics and their fetch
timestamp are left unchanged. -/
theorem fetch_trending_topics_failure (c : TrendCache) (now : ℚ) (net : NetResult)
    (hexp : 900 ≤ now - c.last_trending_time)
    (hfail : net = NetResult.failure ∨ net = NetResult.noResults) :
    fetch_trending_topics c now net = ([], c, true) := by
  unfold fetch_trending_topics
  rw [if_neg (by linarith)]
  rcases hfail with h | h <;> rw [h]

/-- Witness for C7 at a concrete cache with the window expired and the
request failing. -/
theorem fetch_trending_topics_failure_witness :
    (900 : ℚ) ≤ 2000 - 1000 ∧
    fetch_trending_topics ⟨1000, ["btc news".data]⟩ 2000 NetResult.failure =
      ([], ⟨1000, ["btc news".data]⟩, true) :=
  ⟨by norm_num,
   fetch_trending_topics_failure ⟨1000, ["btc news".data]⟩ 2000 NetResult.failure
     (by norm_num) (Or.inl rfl)⟩

/-- Oracle for the C8 counterexample: the first two attempts hit the rate
limit, the third succeeds. -/
def rate_limited_twice_oracle : ℕ → ProviderResult :=
  fun n => if n < 2 then ProviderResult.rateLimitError else ProviderResult.success "ok".data

/-- C8 (counterexample): with two consecutive rate-limit errors,
`call_openai_with_backoff` makes three attempts at the same call — two
retries, not at most one — sleeping 2 then 4 seconds, and still returns
the reply. -/
theorem backoff_retries_more_than_once :
    call_openai_with_backoff rate_limited_twice_oracle =
      ⟨some "ok".data, 3, [2, 4]⟩ ∧
    ¬ (call_openai_with_backoff rate_limited_twice_oracle).attempts ≤ 2 := by decide

theorem call_openai_with_backoff_go_attempts (oracle : ℕ → ProviderResult) :
    ∀ (fuel a : ℕ) (s : List ℕ),
      (call_openai_with_backoff_go oracle fuel a s).attempts ≤ a + fuel := by
  intro fuel
  induction fuel with
  | zero =>
      intro a s
      simp [call_openai_with_backoff_go]
  | succ fuel ih =>
      intro a s
      cases h : oracle a with
      | success t =>
          simp only [call_openai_with_backoff_go, h]
          omega
      | rateLimitError =>
          simp only [call_openai_with_backoff_go, h]
          have := ih (a + 1) (s ++ [min (2 ^ (a + 1)) 60])
          omega
      | otherError =>
          simp only [call_openai_with_backoff_go, h]
          omega

theorem call_openai_with_backoff_go_sleeps (oracle : ℕ → ProviderResult) :
    ∀ (fuel a : ℕ) (s : List ℕ), ∃ m ≤ fuel,
      (call_openai_with_backoff_go oracle fuel a s).sleeps =
        s ++ (List.range m).map (fun k => min (2 ^ (a + k + 1)) 60) := by
  intro fuel
  induction fuel with
  | zero =>
      intro a s
      exact ⟨0, Nat.le_refl 0, by simp [call_openai_with_backoff_go]⟩
  | succ fuel ih =>
      intro a s
      cases h : oracle a with
      | success t =>
          exact ⟨0, Nat.zero_le _, by simp [call_openai_with_backoff_go, h]⟩
      | otherError =>
          exact ⟨0, Nat.zero_le _, by simp [call_openai_with_backoff_go, h]⟩
      | rateLimitError =>
          obtain ⟨m, hm, hs⟩ := ih (a + 1) (s ++ [min (2 ^ (a + 1)) 60])
          refine ⟨m + 1, Nat.succ_le_succ hm, ?_⟩
          simp only [call_openai_with_backoff_go, h]
          have hmap : (List.range (m + 1)).map (fun k => min (2 ^ (a + k + 1)) 60) =
              min (2 ^ (a + 1)) 60 ::
                (List.range m).map (fun k => min (2 ^ (a + 1 + k + 1)) 60) := by
            rw [List.range_succ_eq_map, List.map_cons, List.map_map]
            norm_num
            intro k _
            congr 2
            omega
          rw [hs, hmap, List.append_assoc, List.singleton_append]

/-- C8 (amended): when a provider call in `call_openai_with_backoff`
fails with a rate-limit error the caller waits `min(2 ** r, 60)` seconds
before the r-th retry and retries the same call, but up to four times —
at most five attempts per original call — not exactly once. -/
theorem call_openai_with_backoff_bounded_retry (oracle : ℕ → ProviderResult) :
    (call_openai_with_backoff oracle).attempts ≤ 5 ∧
    ∃ m ≤ 5, (call_openai_with_backoff oracle).sleeps =
      (List.range m).map (fun k => min (2 ^ (k + 1)) 60) := by
  constructor
  · have h := call_openai_with_backoff_go_attempts oracle 5 0 []
    simpa [call_openai_with_backoff] using h
  · obtain ⟨m, hm, hs⟩ := call_openai_with_backoff_go_sleeps oracle 5 0 []
    refine ⟨m, hm, ?_⟩
    simpa [call_openai_with_backoff] using hs
